import Mathlib

/-!
Verification of the `unemail` SMTP engine (MailCrab provider) against its
natural-language specification.

The definitions below are a shallow embedding of the TypeScript sources:
  * `src/types/index.ts`         — the email data model,
  * `src/utils/_utils.ts`        — `validateEmail`, `validateEmailOptions`,
                                   `buildMimeMessage`, `isPortAvailable`,
  * `src/utils/utils.ts`         — `retry`,
  * `src/providers/mailcrab`     — `sendSmtpCommand`, `createSmtpConnection`,
                                   `closeConnection`, `authenticate`,
                                   `sendEmail`, `isAvailable`, the provider
                                   transaction driver,
  * `src/core.ts`                — the `EmailService` facade.

Network I/O is modelled by an explicit `ServerBehavior` (the bytes the peer
would deliver) and a trace of `NetEvent`s recording every socket-level
action the client performs.  JavaScript truthiness of optional string
fields is modelled explicitly (`optTruthy`), and JS exceptions are
modelled with `Except`/tagged error values.
-/

namespace Unemail

/-- `EmailAddress` from `src/types/index.ts`: an email string plus an
optional display name. -/
structure EmailAddress where
  email : String
  name : Option String := none
deriving DecidableEq, Repr

/-- A field of TypeScript type `EmailAddress | EmailAddress[]` (used for
`to`, `cc`, `bcc`). -/
inductive AddrField where
  | single (a : EmailAddress)
  | many (l : List EmailAddress)
deriving DecidableEq, Repr

/-- Flattening of an optional `EmailAddress | EmailAddress[]` field, as the
provider does when collecting recipients (`Array.isArray` dispatch). -/
def flattenField : Option AddrField → List EmailAddress
  | none => []
  | some (.single a) => [a]
  | some (.many l) => l

/-- `string | Buffer` content of an attachment. -/
inductive AttachmentContent where
  | str (s : String)
  | buf (b : List Nat)
deriving DecidableEq, Repr

/-- `Attachment` from `src/types/index.ts` (the unused `path` field is
omitted). -/
structure Attachment where
  filename : String
  content : AttachmentContent
  contentType : Option String := none
  disposition : Option String := none
  cid : Option String := none
deriving DecidableEq, Repr

/-- `EmailOptions` from `src/types/index.ts`.  The required fields `from`
and `to` are modelled as `Option` because `validateEmailOptions` explicitly
guards against them being absent at runtime (`!options.from`, `!options.to`).
`from` is a Lean keyword, hence the field name `fromAddr`.  A `headers`
value of `none` and of `some []` behave identically in the code
(`Object.entries` of `{}` is empty), so `headers` is a plain list. -/
structure EmailOptions where
  fromAddr : Option EmailAddress
  toAddr : Option AddrField
  subject : String
  text : Option String := none
  html : Option String := none
  cc : Option AddrField := none
  bcc : Option AddrField := none
  headers : List (String × String) := []
  attachments : Option (List Attachment) := none
  replyTo : Option EmailAddress := none
deriving DecidableEq, Repr

/-- JavaScript truthiness of an optional string field: `undefined` and the
empty string are falsy. -/
def optTruthy : Option String → Bool
  | none => false
  | some s => !(s == "")

/-- JavaScript `a || d` for an optional string: the default is taken when
the field is absent or empty. -/
def jsOr (o : Option String) (d : String) : String :=
  match o with
  | none => d
  | some s => if s == "" then d else s

/-- Character class `[\w.%+-]` of the local part of the validation regex
(`\w` is `[A-Za-z0-9_]`). -/
def isLocalChar (c : Char) : Bool :=
  c.isAlphanum || c == '_' || c == '.' || c == '%' || c == '+' || c == '-'

/-- Character class `[a-z0-9.-]` (with the `i` flag) of the domain part of
the validation regex. -/
def isDomainChar (c : Char) : Bool :=
  c.isAlphanum || c == '.' || c == '-'

/-- `validateEmail` from `src/utils/_utils.ts`: the regex
`/^[\w.%+-]+@[a-z0-9.-]+\.[a-z]{2,}$/i`.  The domain must decompose as
`A ++ "." ++ B` with `A` a nonempty run of `[a-z0-9.-]` and `B` at least
two letters; since `B` contains no dot, the decomposition point is exactly
the last dot of the domain. -/
def validateEmail (s : String) : Bool :=
  match s.toList.splitOn '@' with
  | [localPart, domain] =>
    let revDomain := domain.reverse
    let tld := (revDomain.takeWhile (fun c => !(c == '.'))).reverse
    let beforeDot := revDomain.dropWhile (fun c => !(c == '.'))
    (!localPart.isEmpty) && localPart.all isLocalChar &&
      (match beforeDot with
       | [] => false
       | _ :: beforeRev =>
         (!beforeRev.isEmpty) && beforeRev.all isDomainChar &&
           decide (tld.length ≥ 2) && tld.all Char.isAlpha)
  | _ => false

/-- Is the `from` field falsy or its email falsy
(`!options.from || !options.from.email`)? -/
def fromFalsy (o : EmailOptions) : Bool :=
  match o.fromAddr with
  | none => true
  | some a => a.email == ""

/-- The `checkAddresses` closure of `validateEmailOptions`: one error per
address of the field that fails `validateEmail`. -/
def checkAddresses (field : Option AddrField) (fieldName : String) : List String :=
  (flattenField field).filterMap fun a =>
    if validateEmail a.email then none
    else some ("Invalid " ++ fieldName ++ " email address: " ++ a.email)

/-- `validateEmailOptions` from `src/utils/_utils.ts`: the sequence of
`errors.push` calls, in source order, as a concatenation of guarded
segments. -/
def validateEmailOptions (o : EmailOptions) : List String :=
  (if fromFalsy o then ["Missing required field: from"] else []) ++
  (if o.toAddr.isNone then ["Missing required field: to"] else []) ++
  (if o.subject == "" then ["Missing required field: subject"] else []) ++
  (if !optTruthy o.text && !optTruthy o.html then
    ["Either text or html content is required"] else []) ++
  (match o.fromAddr with
   | some a =>
     if !(a.email == "") && !validateEmail a.email then
       ["Invalid from email address: " ++ a.email]
     else []
   | none => []) ++
  checkAddresses o.toAddr "to" ++
  checkAddresses o.cc "cc" ++
  checkAddresses o.bcc "bcc" ++
  (match o.replyTo with
   | some r =>
     if !validateEmail r.email then
       ["Invalid replyTo email address: " ++ r.email]
     else []
   | none => [])

/-- The base64 alphabet. -/
def base64Table : List Char :=
  "ABCDEFGHIJKLMNOPQRSTUVWXYZabcdefghijklmnopqrstuvwxyz0123456789+/".toList

/-- The base64 digit for a 6-bit value. -/
def b64c (n : Nat) : Char := base64Table.getD n 'A'

/-- Standard base64 encoding of a byte list (`Buffer#toString('base64')`). -/
def base64Encode : List Nat → String
  | a :: b :: c :: rest =>
    String.mk [b64c (a / 4), b64c (a % 4 * 16 + b / 16),
               b64c (b % 16 * 4 + c / 64), b64c (c % 64)] ++ base64Encode rest
  | [a, b] => String.mk [b64c (a / 4), b64c (a % 4 * 16 + b / 16),
                         b64c (b % 16 * 4), '=']
  | [a] => String.mk [b64c (a / 4), b64c (a % 4 * 16), '=', '=']
  | [] => ""

/-- UTF-8 encoding of one character. -/
def charUtf8 (c : Char) : List Nat :=
  let n := c.toNat
  if n < 128 then [n]
  else if n < 2048 then [192 + n / 64, 128 + n % 64]
  else if n < 65536 then [224 + n / 4096, 128 + n / 64 % 64, 128 + n % 64]
  else [240 + n / 262144, 128 + n / 4096 % 64, 128 + n / 64 % 64, 128 + n % 64]

/-- UTF-8 bytes of a string, as `Buffer.from(s)` produces. -/
def strBytes (s : String) : List Nat := s.toList.flatMap charUtf8

/-- The bytes of some attachment content: `Buffer.from(string)` takes the
UTF-8 bytes; a `Buffer` is already bytes. -/
def contentBytes : AttachmentContent → List Nat
  | .str s => strBytes s
  | .buf b => b

/-- Fuel-driven worker for `chunkList`; the fuel is an upper bound on the
list length, so the `0`-with-nonempty-list case is unreachable. -/
def chunkGo : Nat → List Char → List (List Char)
  | _, [] => []
  | 0, l => [l]
  | fuel + 1, c :: rest => (c :: rest.take 75) :: chunkGo fuel (rest.drop 75)

/-- Split a character list into consecutive chunks of at most 76
characters (the `for (let i = 0; i < content.length; i += 76)` loop). -/
def chunkList (l : List Char) : List (List Char) := chunkGo l.length l

/-- The base64 body of an attachment: encoded content split into lines of
76 characters joined by CRLF (pushed as a single element of the message
array). -/
def wrapBase64 (content : String) : String :=
  String.intercalate "\r\n" ((chunkList content.toList).map (fun cs => String.mk cs))

/-! ### The command/reply correlator (`sendSmtpCommand`) -/

/-- JavaScript `buffer.split('\r\n')` on a character list: non-overlapping
left-to-right splitting at every CRLF. -/
def splitCRLFAux (cur : List Char) : List Char → List (List Char)
  | '\r' :: '\n' :: rest => cur.reverse :: splitCRLFAux [] rest
  | c :: rest => splitCRLFAux (c :: cur) rest
  | [] => [cur.reverse]

/-- `responseBuffer.split('\r\n')`. -/
def splitCRLF (l : List Char) : List (List Char) := splitCRLFAux [] l

/-- The completeness test of the `onData` handler: after appending a chunk,
split the buffer at CRLF; the reply is considered complete as soon as there
is more than one piece and the last *complete* line (`lines[lines.length-2]`)
is truthy with length at least 3.  Returns that line.  The 4th character of
the line (space versus hyphen) is *not* inspected. -/
def smtpBufferDone (b : List Char) : Option (List Char) :=
  let lines := splitCRLF b
  if lines.length > 1 then
    match lines.get? (lines.length - 2) with
    | some lastLine => if lastLine.length ≥ 3 then some lastLine else none
    | none => none
  else none

/-- Outcome of one `sendSmtpCommand` promise. -/
inductive CmdResult where
  | accepted (response : String)
  | rejectedReply (line : String)
deriving DecidableEq, Repr

/-- The `onData` listener loop: accumulate chunks into `responseBuffer`;
on the first chunk after which `smtpBufferDone` fires, resolve (code among
`expected`) or reject (otherwise) and stop listening.  `none` means the
reply never completed (the promise stays pending). -/
def sendSmtpCommandAux (expected : List String) (buffer : List Char) :
    List String → Option CmdResult
  | [] => none
  | chunk :: rest =>
    let b := buffer ++ chunk.toList
    match smtpBufferDone b with
    | some lastLine =>
      some (if expected.contains (String.mk (lastLine.take 3)) then
              CmdResult.accepted (String.mk b)
            else
              CmdResult.rejectedReply (String.mk lastLine))
    | none => sendSmtpCommandAux expected b rest

/-- `sendSmtpCommand` from the MailCrab provider, as a function of the
expected reply codes and the data chunks the server delivers.  (The write
of the command itself is accounted for in the driver's trace.) -/
def sendSmtpCommand (expected : List String) (chunks : List String) : Option CmdResult :=
  sendSmtpCommandAux expected [] chunks

/-! ### The MIME builder (`buildMimeMessage`) -/

/-- `formatEmailAddress` from `src/utils/_utils.ts`: throws on an invalid
address, otherwise `Name <email>` when a truthy name is present. -/
def formatEmailAddress (a : EmailAddress) : Except String String :=
  if !validateEmail a.email then
    .error ("[unemail] [email] Invalid email address: " ++ a.email)
  else
    .ok (match a.name with
         | some n => if n == "" then a.email else n ++ " <" ++ a.email ++ ">"
         | none => a.email)

/-- `addresses.map(formatEmailAddress)` with JS throw semantics: the
first invalid address aborts. -/
def formatAddrList : List EmailAddress → Except String (List String)
  | [] => .ok []
  | a :: t => do
    let sa ← formatEmailAddress a
    let rest ← formatAddrList t
    return sa :: rest

/-- `formatEmailAddresses`: comma-joined formatting of a
single-or-array field. -/
def formatEmailAddresses (f : AddrField) : Except String String :=
  match f with
  | .single a => formatEmailAddress a
  | .many l => (formatAddrList l).map (String.intercalate ", ")

/-- The lines pushed for one attachment by `buildMimeMessage`. -/
def attachmentLines (boundary : String) (att : Attachment) : List String :=
  let contentType := jsOr att.contentType "application/octet-stream"
  let disposition := jsOr att.disposition "attachment"
  ["--" ++ boundary,
   "Content-Type: " ++ contentType ++ "; name=\"" ++ att.filename ++ "\"",
   "Content-Transfer-Encoding: base64",
   "Content-Disposition: " ++ disposition ++ "; filename=\"" ++ att.filename ++ "\""]
  ++ (match att.cid with
      | some c => if c == "" then [] else ["Content-ID: <" ++ c ++ ">"]
      | none => [])
  ++ [""]
  ++ [wrapBase64 (base64Encode (contentBytes att.content))]
  ++ [""]

/-- `buildMimeMessage` from `src/utils/_utils.ts`, with the random boundary
supplied as a parameter.  The `message.push` sequence is translated into
successive list appends; address formatting can throw, which propagates as
`Except.error` exactly in source order (From, To, Cc, Bcc, Reply-To).
Accessing a missing `from`/`to` is the JS `TypeError` path. -/
def buildMimeMessage (o : EmailOptions) (boundary : String) : Except String String := do
  let fromLine ← match o.fromAddr with
    | some a => formatEmailAddress a
    | none => .error "TypeError: Cannot read properties of undefined"
  let toLine ← match o.toAddr with
    | some f => formatEmailAddresses f
    | none => .error "TypeError: Cannot read properties of undefined"
  let m := ["From: " ++ fromLine, "To: " ++ toLine]
  let m ← match o.cc with
    | some f => (formatEmailAddresses f).map (fun s => m ++ ["Cc: " ++ s])
    | none => pure m
  let m ← match o.bcc with
    | some f => (formatEmailAddresses f).map (fun s => m ++ ["Bcc: " ++ s])
    | none => pure m
  let m ← match o.replyTo with
    | some r => (formatEmailAddress r).map (fun s => m ++ ["Reply-To: " ++ s])
    | none => pure m
  let m := m ++ ["Subject: " ++ o.subject, "MIME-Version: 1.0"]
  let m := m ++ o.headers.map (fun kv => kv.1 ++ ": " ++ kv.2)
  let m := m ++ ["Content-Type: multipart/mixed; boundary=\"" ++ boundary ++ "\"", ""]
  let m := m ++ (if optTruthy o.text then
      ["--" ++ boundary, "Content-Type: text/plain; charset=UTF-8",
       "Content-Transfer-Encoding: 7bit", "", (o.text.getD ""), ""]
    else [])
  let m := m ++ (if optTruthy o.html then
      ["--" ++ boundary, "Content-Type: text/html; charset=UTF-8",
       "Content-Transfer-Encoding: 7bit", "", (o.html.getD ""), ""]
    else [])
  let m := m ++ (match o.attachments with
    | some atts => if atts.isEmpty then [] else (atts.map (attachmentLines boundary)).flatten
    | none => [])
  let m := m ++ ["--" ++ boundary ++ "--"]
  return String.intercalate "\r\n" m

/-! ### Connection manager, authentication and the transaction driver -/

/-- Socket-level actions of one `sendEmail` call.  `probeOpen`/`probeClose`
are the auxiliary probe socket of `isPortAvailable`; the remaining events
concern the one SMTP transaction socket. -/
inductive NetEvent where
  | probeOpen
  | probeClose
  | connected
  | wrote (s : String)
  | socketEnd
  | destroyed
deriving DecidableEq, Repr

/-- The provider configuration after defaulting
(`Required<MailCrabConfig>`). -/
structure SmtpConfig where
  host : String
  port : Nat
  secure : Bool
  user : String
  password : String
deriving DecidableEq, Repr

/-- The environment's behaviour for one `sendEmail` call: whether a TCP
connection attempt succeeds, the greeting data event (`none` = the server
never sends, so the socket timeout fires), and the chunk lists delivered in
reply to the successive commands. -/
structure ServerBehavior where
  connectOk : Bool
  greeting : Option String
  replies : List (List String)
deriving DecidableEq, Repr

/-- Tagged failure causes surfaced by the provider (the `createError`
values, by construction site). -/
inductive SmtpErr where
  | invalidOptions (errs : List String)
  | notAvailable
  | connectionTimeout
  | badGreeting (greeting : String)
  | connectionRefused
  | unexpectedReply (expected : List String) (line : String)
  | mimeError (e : String)
deriving DecidableEq, Repr

/-- The `Result<EmailResult>` shape returned by `sendEmail`. -/
structure SendOutcome where
  success : Bool
  error : Option SmtpErr := none
  response : Option String := none
deriving DecidableEq, Repr

/-- `isPortAvailable` from `src/utils/_utils.ts`: resolves `true` exactly
when the TCP connection attempt succeeds.  The greeting is never read and
the probe socket is ended (on success) or destroyed (on error/timeout)
before resolving. -/
def isPortAvailable (srv : ServerBehavior) : Bool := srv.connectOk

/-- The probe-socket events of one lazy `initialize` call: none when the
provider is already initialized, otherwise the `isPortAvailable` socket is
opened and then ended/destroyed before the probe resolves. -/
def probeTrace (inited : Bool) : List NetEvent :=
  if inited then [] else [.probeOpen, .probeClose]

/-- How `closeConnection` can go: the happy path, a throwing
`socket.write('QUIT\r\n')`, or a throwing `socket.end()`. -/
inductive CloseBehavior where
  | ok
  | writeThrows
  | endThrows
deriving DecidableEq, Repr

/-- `closeConnection` from the MailCrab provider: it writes `QUIT` itself,
then ends the socket, and resolves on every path (a throw during close is
swallowed).  When the `QUIT` write throws, `socket.end()` is never
reached. -/
def closeConnection : CloseBehavior → List NetEvent
  | .ok => [.wrote "QUIT\r\n", .socketEnd]
  | .writeThrows => []
  | .endThrows => [.wrote "QUIT\r\n"]

/-- The commands issued by `authenticate`: nothing without full
credentials, otherwise the three-step LOGIN exchange. -/
def authCmds (cfg : SmtpConfig) : List (String × List String) :=
  if cfg.user == "" || cfg.password == "" then []
  else [("AUTH LOGIN", ["334"]),
        (base64Encode (strBytes cfg.user), ["334"]),
        (base64Encode (strBytes cfg.password), ["235"])]

/-- `emailOpts.from.email`, defined only after validation has ensured the
field is present. -/
def fromEmail (o : EmailOptions) : String :=
  match o.fromAddr with
  | some a => a.email
  | none => ""

/-- The flattened recipient emails: `to`, then `cc`, then `bcc`, exactly as
the `recipients.push` sequence builds them (no de-duplication). -/
def recipientEmails (o : EmailOptions) : List String :=
  (flattenField o.toAddr).map (fun a => a.email) ++
  (flattenField o.cc).map (fun a => a.email) ++
  (flattenField o.bcc).map (fun a => a.email)

/-- The command/expected-code pairs of the envelope portion of the
transaction: EHLO, optional AUTH LOGIN exchange, MAIL FROM, one RCPT TO
per flattened recipient, then DATA. -/
def envelopeCmds (cfg : SmtpConfig) (o : EmailOptions) : List (String × List String) :=
  ("EHLO " ++ cfg.host, ["250"]) ::
  (authCmds cfg ++
   [("MAIL FROM:<" ++ fromEmail o ++ ">", ["250"])] ++
   (recipientEmails o).map (fun r => ("RCPT TO:<" ++ r ++ ">", ["250"])) ++
   [("DATA", ["354"])])

/-- The driver's per-connection state: the reply scripts not yet consumed,
and the accumulated socket trace. -/
structure DriverState where
  replies : List (List String)
  trace : List NetEvent
deriving DecidableEq, Repr

/-- One `await sendSmtpCommand(socket, cmd, expected)`: the CRLF-terminated
command is written, then the next scripted reply is interpreted.  `none`
means the promise never settles (no scripted reply, or the scripted chunks
never complete a line). -/
def doCmd (st : DriverState) (cmd : String) (expected : List String) :
    Option (DriverState × Except SmtpErr String) :=
  match st.replies with
  | [] => none
  | chunks :: rest =>
    let st' : DriverState :=
      ⟨rest, st.trace ++ [NetEvent.wrote (cmd ++ "\r\n")]⟩
    match sendSmtpCommand expected chunks with
    | none => none
    | some (.accepted resp) => some (st', .ok resp)
    | some (.rejectedReply line) =>
      some (st', .error (.unexpectedReply expected line))

/-- Sequential execution of a list of commands, stopping at the first
rejection (the thrown error aborts the remaining `await`s). -/
def runCmds (st : DriverState) : List (String × List String) →
    Option (DriverState × Option SmtpErr)
  | [] => some (st, none)
  | (cmd, expected) :: rest =>
    match doCmd st cmd expected with
    | none => none
    | some (st', .ok _) => runCmds st' rest
    | some (st', .error e) => some (st', some e)

/-- `sendEmail` of the MailCrab provider.  `inited` is the provider's
`isInitialized` flag, `boundary` the randomly generated MIME boundary.
The result is `none` when the call never settles (a reply never
completes); otherwise the `Result` value together with the full socket
trace.  Mirrors the source control flow: validation, lazy `initialize`
(an `isPortAvailable` probe), `createSmtpConnection` (greeting must be
220, otherwise the socket is destroyed), the envelope commands, the DATA
payload (built message plus CRLF-dot), and `closeConnection` on both the
success path and the inner catch. -/
def sendEmail (cfg : SmtpConfig) (inited : Bool) (boundary : String)
    (o : EmailOptions) (srv : ServerBehavior) :
    Option (SendOutcome × List NetEvent) :=
  if (validateEmailOptions o).isEmpty then
    if !inited && !isPortAvailable srv then
      some ({ success := false, error := some .notAvailable }, probeTrace inited)
    else if !srv.connectOk then
      some ({ success := false, error := some .connectionRefused }, probeTrace inited)
    else
      match srv.greeting with
      | none =>
        some ({ success := false, error := some .connectionTimeout },
              probeTrace inited ++ [.connected, .destroyed])
      | some g =>
        if String.mk (g.toList.take 3) == "220" then
          match runCmds ⟨srv.replies, probeTrace inited ++ [.connected]⟩
              (envelopeCmds cfg o) with
          | none => none
          | some (st1, some e) =>
            some ({ success := false, error := some e },
                  st1.trace ++ closeConnection .ok)
          | some (st1, none) =>
            match buildMimeMessage o boundary with
            | .error e =>
              some ({ success := false, error := some (.mimeError e) },
                    st1.trace ++ closeConnection .ok)
            | .ok mime =>
              match doCmd st1 (mime ++ "\r\n.") ["250"] with
              | none => none
              | some (st2, .error e) =>
                some ({ success := false, error := some e },
                      st2.trace ++ closeConnection .ok)
              | some (st2, .ok _) =>
                some ({ success := true, response := some "Message accepted" },
                      st2.trace ++ closeConnection .ok)
        else
          some ({ success := false, error := some (.badGreeting g) },
                probeTrace inited ++ [.connected, .destroyed])
  else
    some ({ success := false,
            error := some (.invalidOptions (validateEmailOptions o)) }, [])

/-- `initialize` of the MailCrab provider: a no-op when already
initialized, otherwise it succeeds exactly when the `isPortAvailable`
probe does, and throws (wrapped) otherwise. -/
def initProvider (inited : Bool) (srv : ServerBehavior) : Except SmtpErr Unit :=
  if inited then .ok ()
  else if isPortAvailable srv then .ok () else .error .notAvailable

/-- The command strings written on the transaction socket, in order. -/
def writesOf (tr : List NetEvent) : List String :=
  tr.filterMap fun e => match e with
    | .wrote s => some s
    | _ => none

/-! ### The `EmailService` facade (`src/core.ts`) -/

/-- The provider surface `EmailService` consumes, with each effectful call
modelled by its outcome (`Except.error` = the underlying promise
rejected).  `credRes = none` models a provider without
`validateCredentials`. -/
structure ProviderHandle where
  availRes : Except String Bool
  credRes : Option (Except String Bool)
  initRes : Except String Unit
deriving Repr

/-- `EmailService.isAvailable`: `getProvider` (which can throw during
provider construction) followed by `provider.isAvailable()`, with a
catch-all returning `false`. -/
def serviceIsAvailable (gp : Except String ProviderHandle) : Bool :=
  match gp with
  | .error _ => false
  | .ok p =>
    match p.availRes with
    | .error _ => false
    | .ok b => b

/-- `EmailService.validateCredentials`: lazily initialize (construction
plus `provider.initialize()`), get the provider, call its optional
`validateCredentials` (assumed valid when absent), with a catch-all
returning `false`. -/
def serviceValidateCredentials (gp : Except String ProviderHandle)
    (inited : Bool) : Bool :=
  let initStep : Except String Unit :=
    if inited then .ok ()
    else
      match gp with
      | .error e => .error e
      | .ok p => p.initRes
  match initStep with
  | .error _ => false
  | .ok _ =>
    match gp with
    | .error _ => false
    | .ok p =>
      match p.credRes with
      | none => true
      | some (.ok b) => b
      | some (.error _) => false

/-! ### The generic `retry` helper (`src/utils/utils.ts`) -/

/-- One invocation of the retried operation: a settled `Result` (with its
success flag and message) or a thrown error. -/
inductive FnOut where
  | ret (success : Bool) (info : String)
  | thr (e : String)
deriving DecidableEq, Repr

/-- The `Result` the caller sees for one invocation outcome: a thrown
error is wrapped as a failure. -/
def toResult : FnOut → Bool × String
  | .ret s i => (s, i)
  | .thr e => (false, e)

/-- `retry(fn, retries, delay)`: `fn i` is the outcome of the `i`-th
invocation.  Returns the final `Result`, the number of invocations
performed, and the list of delays awaited between invocations.  A
successful `Result` returns immediately; otherwise, while retries remain,
wait `delay` and recurse with `retries - 1` and `delay * 2`. -/
def retry (fn : Nat → FnOut) (i : Nat) : Nat → Nat → (Bool × String) × Nat × List Nat
  | 0, _ =>
    (toResult (fn i), 1, [])
  | r + 1, delay =>
    if (toResult (fn i)).1 then (toResult (fn i), 1, [])
    else
      let rest := retry fn (i + 1) r (delay * 2)
      (rest.1, rest.2.1 + 1, delay :: rest.2.2)

/-- Specification-side address formatting (total; used only for addresses
the validator has accepted): `Name <email>` when a truthy display name is
present, the bare email otherwise. -/
def fmtAddr (a : EmailAddress) : String :=
  match a.name with
  | some n => if n == "" then a.email else n ++ " <" ++ a.email ++ ">"
  | none => a.email

/-- Specification-side formatting of a single-or-array address field:
comma-joined. -/
def fmtAddrs : AddrField → String
  | .single a => fmtAddr a
  | .many l => String.intercalate ", " (l.map fmtAddr)

/-- Specification-side MIME layout, following §4.4 of the specification:
headers in the order `From, To, Cc?, Bcc?, Reply-To?, Subject,
MIME-Version`, then caller-supplied custom headers, then the
`Content-Type: multipart/mixed` header carrying the boundary; then a
text/plain part if text is present, a text/html part if html is present,
then one part per attachment; the final line is `--boundary--`. -/
def specMimeLines (f : EmailAddress) (tf : AddrField) (o : EmailOptions)
    (b : String) : List String :=
  ["From: " ++ fmtAddr f, "To: " ++ fmtAddrs tf]
  ++ (match o.cc with | some cf => ["Cc: " ++ fmtAddrs cf] | none => [])
  ++ (match o.bcc with | some bf => ["Bcc: " ++ fmtAddrs bf] | none => [])
  ++ (match o.replyTo with | some r => ["Reply-To: " ++ fmtAddr r] | none => [])
  ++ ["Subject: " ++ o.subject, "MIME-Version: 1.0"]
  ++ o.headers.map (fun kv => kv.1 ++ ": " ++ kv.2)
  ++ ["Content-Type: multipart/mixed; boundary=\"" ++ b ++ "\"", ""]
  ++ (if optTruthy o.text then
        ["--" ++ b, "Content-Type: text/plain; charset=UTF-8",
         "Content-Transfer-Encoding: 7bit", "", o.text.getD "", ""]
      else [])
  ++ (if optTruthy o.html then
        ["--" ++ b, "Content-Type: text/html; charset=UTF-8",
         "Content-Transfer-Encoding: 7bit", "", o.html.getD "", ""]
      else [])
  ++ (match o.attachments with
      | some atts => if atts.isEmpty then [] else (atts.map (attachmentLines b)).flatten
      | none => [])
  ++ ["--" ++ b ++ "--"]

/-! ### Trace lemmas for the driver -/

/-- A settled `doCmd` consumed exactly one scripted reply and appended
exactly the write of its CRLF-terminated command. -/
lemma doCmd_some {st : DriverState} {cmd : String} {expected : List String}
    {st' : DriverState} {r : Except SmtpErr String}
    (h : doCmd st cmd expected = some (st', r)) :
    ∃ chunks rest, st.replies = chunks :: rest ∧
      st' = ⟨rest, st.trace ++ [NetEvent.wrote (cmd ++ "\r\n")]⟩ := by
  rcases hr : st.replies with _ | ⟨chunks, rest⟩
  · simp [doCmd, hr] at h
  · refine ⟨chunks, rest, rfl, ?_⟩
    rcases hs : sendSmtpCommand expected chunks with _ | res
    · simp [doCmd, hr, hs] at h
    · rcases res with resp | line <;> simp [doCmd, hr, hs] at h <;> exact h.1.symm

/-- A `doCmd` that returned `.ok` did so because the scripted reply was
accepted (its code was among the expected ones). -/
lemma doCmd_ok {st : DriverState} {cmd : String} {expected : List String}
    {st' : DriverState} {v : String}
    (h : doCmd st cmd expected = some (st', Except.ok v)) :
    ∃ chunks rest, st.replies = chunks :: rest ∧
      sendSmtpCommand expected chunks = some (CmdResult.accepted v) ∧
      st' = ⟨rest, st.trace ++ [NetEvent.wrote (cmd ++ "\r\n")]⟩ := by
  rcases hr : st.replies with _ | ⟨chunks, rest⟩
  · simp [doCmd, hr] at h
  · rcases hs : sendSmtpCommand expected chunks with _ | res
    · simp [doCmd, hr, hs] at h
    · rcases res with resp | line
      · simp [doCmd, hr, hs] at h
        obtain ⟨h1, h2⟩ := h
        subst h2
        exact ⟨chunks, rest, rfl, hs, h1.symm⟩
      · simp [doCmd, hr, hs] at h

/-- A `doCmd` that returned `.error` did so because the scripted reply was
rejected (its code was not among the expected ones). -/
lemma doCmd_err {st : DriverState} {cmd : String} {expected : List String}
    {st' : DriverState} {e : SmtpErr}
    (h : doCmd st cmd expected = some (st', Except.error e)) :
    ∃ chunks rest line, st.replies = chunks :: rest ∧
      sendSmtpCommand expected chunks = some (CmdResult.rejectedReply line) ∧
      st' = ⟨rest, st.trace ++ [NetEvent.wrote (cmd ++ "\r\n")]⟩ := by
  rcases hr : st.replies with _ | ⟨chunks, rest⟩
  · simp [doCmd, hr] at h
  · rcases hs : sendSmtpCommand expected chunks with _ | res
    · simp [doCmd, hr, hs] at h
    · rcases res with resp | line
      · simp [doCmd, hr, hs] at h
      · simp [doCmd, hr, hs] at h
        exact ⟨chunks, rest, line, rfl, hs, h.1.symm⟩

/-- A fully successful `runCmds` wrote every command in order, consumed
one scripted reply per command, and every command's reply was accepted. -/
lemma runCmds_ok_trace :
    ∀ (cmds : List (String × List String)) (st st' : DriverState),
      runCmds st cmds = some (st', none) →
      st'.trace = st.trace ++ cmds.map (fun p => NetEvent.wrote (p.1 ++ "\r\n")) ∧
      st'.replies = st.replies.drop cmds.length ∧
      ∀ i, i < cmds.length →
        ∃ resp, sendSmtpCommand (cmds.getD i ("", [])).2 (st.replies.getD i []) =
          some (CmdResult.accepted resp) := by
  intro cmds
  induction cmds with
  | nil => intro st st' h; simp [runCmds] at h; simp [h]
  | cons p rest ih =>
    intro st st' h
    rcases p with ⟨cmd, expected⟩
    rcases hd : doCmd st cmd expected with _ | ⟨st1, r⟩
    · simp [runCmds, hd] at h
    · rcases r with e | v
      · simp [runCmds, hd] at h
      · rw [runCmds, hd] at h
        simp only at h
        obtain ⟨chunks, rest1, hre, hsend, hst1⟩ := doCmd_ok hd
        obtain ⟨ht, hr, hacc⟩ := ih st1 st' h
        subst hst1
        refine ⟨by simp [ht, List.append_assoc], by simp [hr, hre], ?_⟩
        intro i hi
        rcases i with _ | j
        · rw [hre]
          exact ⟨v, hsend⟩
        · rw [hre, List.getD_cons_succ, List.getD_cons_succ]
          exact hacc j (by simpa using hi)

/-- A `runCmds` that stopped at a rejected command wrote exactly the
first `k + 1` commands: every command before the `k`-th had its reply
accepted, and the `k`-th command's reply was rejected. -/
lemma runCmds_err_trace :
    ∀ (cmds : List (String × List String)) (st st' : DriverState) (e : SmtpErr),
      runCmds st cmds = some (st', some e) →
      ∃ k, k < cmds.length ∧
        st'.trace = st.trace ++
          (cmds.take (k + 1)).map (fun p => NetEvent.wrote (p.1 ++ "\r\n")) ∧
        (∀ i, i < k →
          ∃ resp, sendSmtpCommand (cmds.getD i ("", [])).2 (st.replies.getD i []) =
            some (CmdResult.accepted resp)) ∧
        (∃ line, sendSmtpCommand (cmds.getD k ("", [])).2 (st.replies.getD k []) =
          some (CmdResult.rejectedReply line)) := by
  intro cmds
  induction cmds with
  | nil => intro st st' e h; simp [runCmds] at h
  | cons p rest ih =>
    intro st st' e h
    rcases p with ⟨cmd, expected⟩
    rcases hd : doCmd st cmd expected with _ | ⟨st1, r⟩
    · simp [runCmds, hd] at h
    · rcases r with err | v
      · rw [runCmds, hd] at h
        simp only [Option.some.injEq, Prod.mk.injEq] at h
        obtain ⟨chunks, rest1, line, hre, hsend, hst1⟩ := doCmd_err hd
        refine ⟨0, by simp, ?_, by intro i hi; omega, ?_⟩
        · subst hst1
          simp [← h.1]
        · rw [hre]
          exact ⟨line, hsend⟩
      · rw [runCmds, hd] at h
        simp only at h
        obtain ⟨chunks, rest1, hre, hsend, hst1⟩ := doCmd_ok hd
        obtain ⟨k, hk, ht, hacc, hrej⟩ := ih st1 st' e h
        subst hst1
        refine ⟨k + 1, by simpa using hk, by simp [ht, List.append_assoc], ?_, ?_⟩
        · intro i hi
          rcases i with _ | j
          · rw [hre]
            exact ⟨v, hsend⟩
          · rw [hre, List.getD_cons_succ, List.getD_cons_succ]
            exact hacc j (by omega)
        · rw [hre, List.getD_cons_succ, List.getD_cons_succ]
          exact hrej

/-- Every settled `sendEmail` call has one of four trace shapes: nothing
at all (validation failure), the probe only (unavailable / refused
connection), a destroyed connection (missing or non-220 greeting), or an
established conversation — command writes only — terminated by
`closeConnection`'s QUIT-write and socket end. -/
lemma sendEmail_trace_cases {cfg : SmtpConfig} {inited : Bool} {b : String}
    {o : EmailOptions} {srv : ServerBehavior} {res : SendOutcome}
    {tr : List NetEvent}
    (h : sendEmail cfg inited b o srv = some (res, tr)) :
    tr = [] ∨ tr = probeTrace inited ∨
    tr = probeTrace inited ++ [NetEvent.connected, NetEvent.destroyed] ∨
    ∃ ws : List String,
      tr = probeTrace inited ++ [NetEvent.connected] ++ ws.map NetEvent.wrote ++
        [NetEvent.wrote "QUIT\r\n", NetEvent.socketEnd] := by
  unfold sendEmail at h
  split at h
  · split at h
    · simp only [Option.some.injEq, Prod.mk.injEq] at h
      exact Or.inr (Or.inl h.2.symm)
    · split at h
      · simp only [Option.some.injEq, Prod.mk.injEq] at h
        exact Or.inr (Or.inl h.2.symm)
      · split at h
        · simp only [Option.some.injEq, Prod.mk.injEq] at h
          exact Or.inr (Or.inr (Or.inl h.2.symm))
        · rename_i g
          split at h
          · split at h
            · exact absurd h (by simp)
            · rename_i st1 e hrun
              simp only [Option.some.injEq, Prod.mk.injEq] at h
              obtain ⟨k, hk, ht, -, -⟩ := runCmds_err_trace _ _ _ _ hrun
              refine Or.inr (Or.inr (Or.inr
                ⟨((envelopeCmds cfg o).take (k + 1)).map (fun p => p.1 ++ "\r\n"), ?_⟩))
              rw [← h.2, ht, closeConnection]
              simp [List.map_map, Function.comp_def, List.append_assoc, String.append_assoc]
            · rename_i st1 hrun
              obtain ⟨ht1, -, -⟩ := runCmds_ok_trace _ _ _ hrun
              split at h
              · simp only [Option.some.injEq, Prod.mk.injEq] at h
                refine Or.inr (Or.inr (Or.inr
                  ⟨(envelopeCmds cfg o).map (fun p => p.1 ++ "\r\n"), ?_⟩))
                rw [← h.2, ht1, closeConnection]
                simp [List.map_map, Function.comp_def, List.append_assoc, String.append_assoc]
              · rename_i mime hmime
                split at h
                · exact absurd h (by simp)
                · rename_i st2 e hdo
                  simp only [Option.some.injEq, Prod.mk.injEq] at h
                  obtain ⟨chunks, rest1, _, hst2⟩ := doCmd_some hdo
                  refine Or.inr (Or.inr (Or.inr
                    ⟨(envelopeCmds cfg o).map (fun p => p.1 ++ "\r\n") ++
                      [mime ++ "\r\n.\r\n"], ?_⟩))
                  rw [← h.2, hst2, ht1, closeConnection]
                  simp [List.map_map, Function.comp_def, List.append_assoc, String.append_assoc]
                · rename_i st2 v hdo
                  simp only [Option.some.injEq, Prod.mk.injEq] at h
                  obtain ⟨chunks, rest1, _, hst2⟩ := doCmd_some hdo
                  refine Or.inr (Or.inr (Or.inr
                    ⟨(envelopeCmds cfg o).map (fun p => p.1 ++ "\r\n") ++
                      [mime ++ "\r\n.\r\n"], ?_⟩))
                  rw [← h.2, hst2, ht1, closeConnection]
                  simp [List.map_map, Function.comp_def, List.append_assoc, String.append_assoc]
          · simp only [Option.some.injEq, Prod.mk.injEq] at h
            exact Or.inr (Or.inr (Or.inl h.2.symm))
  · simp only [Option.some.injEq, Prod.mk.injEq] at h
    exact Or.inl h.2.symm

/-- A trace consisting only of command writes contains no occurrence of a
non-write event. -/
lemma count_map_wrote_ne (ws : List String) {x : NetEvent}
    (hx : ∀ s, x ≠ NetEvent.wrote s) :
    (ws.map NetEvent.wrote).count x = 0 := by
  rw [List.count_eq_zero]
  intro hmem
  obtain ⟨u, _, hu⟩ := List.mem_map.mp hmem
  exact hx u hu.symm

lemma writesOf_append (a c : List NetEvent) :
    writesOf (a ++ c) = writesOf a ++ writesOf c := by
  simp [writesOf]

lemma writesOf_map_wrote (ws : List String) : writesOf (ws.map NetEvent.wrote) = ws := by
  induction ws with
  | nil => rfl
  | cons w rest ih => simp [writesOf] at ih ⊢; exact ih

lemma writesOf_probe (inited : Bool) : writesOf (probeTrace inited) = [] := by
  cases inited <;> rfl

/-- C1.  For every settled call to the SMTP provider's `sendEmail`: the
transaction socket is opened at most once; whenever it is opened it is
closed or destroyed exactly once, whatever step the transaction fails at
(greeting, EHLO, AUTH, MAIL FROM, RCPT TO, DATA, payload) and also on
success; and the `isPortAvailable` probe socket is likewise always
released.  No socket handle is leaked on any exit path. -/
theorem sendEmail_closes_socket_exactly_once (cfg : SmtpConfig)
    (inited : Bool) (b : String) (o : EmailOptions) (srv : ServerBehavior)
    (res : SendOutcome) (tr : List NetEvent)
    (h : sendEmail cfg inited b o srv = some (res, tr)) :
    tr.count NetEvent.connected ≤ 1 ∧
    tr.count NetEvent.socketEnd + tr.count NetEvent.destroyed =
      tr.count NetEvent.connected ∧
    tr.count NetEvent.probeOpen = tr.count NetEvent.probeClose := by
  have hwc := fun ws => count_map_wrote_ne ws
    (x := NetEvent.connected) (fun u => by simp)
  have hwe := fun ws => count_map_wrote_ne ws
    (x := NetEvent.socketEnd) (fun u => by simp)
  have hwd := fun ws => count_map_wrote_ne ws
    (x := NetEvent.destroyed) (fun u => by simp)
  have hwp := fun ws => count_map_wrote_ne ws
    (x := NetEvent.probeOpen) (fun u => by simp)
  have hwq := fun ws => count_map_wrote_ne ws
    (x := NetEvent.probeClose) (fun u => by simp)
  rcases sendEmail_trace_cases h with h' | h' | h' | ⟨ws, h'⟩ <;> subst h' <;>
    cases inited <;>
    simp [probeTrace, List.count_append, List.count_cons, hwc, hwe, hwd, hwp, hwq]

/-- C1 witness: a run that fails at EHLO against a concrete server. -/
theorem sendEmail_closes_socket_exactly_once_witness :
    ([NetEvent.connected, NetEvent.wrote "EHLO localhost\r\n",
      NetEvent.wrote "QUIT\r\n", NetEvent.socketEnd].count NetEvent.connected ≤ 1) ∧
    ([NetEvent.connected, NetEvent.wrote "EHLO localhost\r\n",
      NetEvent.wrote "QUIT\r\n", NetEvent.socketEnd].count NetEvent.socketEnd +
     [NetEvent.connected, NetEvent.wrote "EHLO localhost\r\n",
      NetEvent.wrote "QUIT\r\n", NetEvent.socketEnd].count NetEvent.destroyed =
     [NetEvent.connected, NetEvent.wrote "EHLO localhost\r\n",
      NetEvent.wrote "QUIT\r\n", NetEvent.socketEnd].count NetEvent.connected) ∧
    ([NetEvent.connected, NetEvent.wrote "EHLO localhost\r\n",
      NetEvent.wrote "QUIT\r\n", NetEvent.socketEnd].count NetEvent.probeOpen =
     [NetEvent.connected, NetEvent.wrote "EHLO localhost\r\n",
      NetEvent.wrote "QUIT\r\n", NetEvent.socketEnd].count NetEvent.probeClose) :=
  sendEmail_closes_socket_exactly_once
    ⟨"localhost", 1025, false, "", ""⟩ true "B"
    { fromAddr := some { email := "a@b.co" }, toAddr := some (.single { email := "c@d.co" }),
      subject := "s", text := some "t" }
    ⟨true, some "220 hi\r\n", [["500 no\r\n"]]⟩
    { success := false,
      error := some (.unexpectedReply ["250"] "500 no") }
    [NetEvent.connected, NetEvent.wrote "EHLO localhost\r\n",
     NetEvent.wrote "QUIT\r\n", NetEvent.socketEnd]
    (by decide)

/-- C2 counterexample: a lone continuation line — 4th character a hyphen,
same leading code — does complete the command: `sendSmtpCommand` resolves
on it, contrary to the claim that only a terminal (space) line can. -/
theorem sendSmtpCommand_continuation_completes_counterexample :
    sendSmtpCommand ["250"] ["250-SIZE 10240\r\n"] =
      some (CmdResult.accepted "250-SIZE 10240\r\n") ∧
    ("250-SIZE 10240".toList)[3]? = some '-' := by
  exact ⟨by decide, by decide⟩

/-- C2 (amended).  `sendSmtpCommand` buffers partial reads across data
events: a chunk after which the buffer holds no complete CRLF line of
length ≥ 3 leaves the command pending with the bytes retained (processing
continues exactly as if the next chunk had arrived merged with it), and
the command settles at the first data event after which the buffer's last
complete line has at least 3 characters — resolving iff that line's first
three characters are among the expected codes.  The 4th character
(space/hyphen) is never consulted. -/
theorem sendSmtpCommand_first_complete_line (expected : List String)
    (c1 c2 : String) (rest : List String) (line : List Char) :
    (smtpBufferDone c1.toList = none →
      sendSmtpCommand expected (c1 :: c2 :: rest) =
        sendSmtpCommand expected ((c1 ++ c2) :: rest)) ∧
    (smtpBufferDone c1.toList = some line →
      sendSmtpCommand expected (c1 :: rest) =
        some (if expected.contains (String.mk (line.take 3)) then
                CmdResult.accepted c1
              else CmdResult.rejectedReply (String.mk line))) := by
  constructor
  · intro h1
    have h1' : smtpBufferDone c1.data = none := h1
    have happ : (c1 ++ c2).data = c1.data ++ c2.data := rfl
    simp [sendSmtpCommand, sendSmtpCommandAux, h1', happ]
  · intro h2
    have h2' : smtpBufferDone c1.data = some line := h2
    have hmk : String.mk c1.data = c1 := rfl
    simp [sendSmtpCommand, sendSmtpCommandAux, h2', hmk]

/-- C2 witness: a reply split mid-line across two reads behaves as if it
had arrived in one, and a complete terminal line settles the command. -/
theorem sendSmtpCommand_first_complete_line_witness :
    (sendSmtpCommand ["250"] ["25", "0 ok\r\n"] =
      sendSmtpCommand ["250"] ["250 ok\r\n"]) ∧
    (sendSmtpCommand ["250"] ["250 ok\r\n"] =
      some (if ["250"].contains (String.mk (("250 ok".toList).take 3)) then
              CmdResult.accepted "250 ok\r\n"
            else CmdResult.rejectedReply (String.mk "250 ok".toList))) :=
  ⟨(sendSmtpCommand_first_complete_line ["250"] "25" "0 ok\r\n" [] []).1 (by decide),
   (sendSmtpCommand_first_complete_line ["250"] "250 ok\r\n" "" [] "250 ok".toList).2
     (by decide)⟩

/-- C8 counterexample: `closeConnection` does write the `QUIT` command
itself, contrary to the claim that it sends no SMTP commands. -/
theorem closeConnection_sends_quit_counterexample :
    NetEvent.wrote "QUIT\r\n" ∈ closeConnection CloseBehavior.ok := by decide

/-- C8 (amended).  `closeConnection` itself sends exactly the `QUIT`
command and then ends the socket (the transaction driver delegates `QUIT`
to it); it resolves on every path, a throw during close being swallowed —
though when the `QUIT` write itself throws, the `socket.end()` call is
skipped.  In every settled `sendEmail` in which any command was written,
the trace ends with `closeConnection`'s QUIT-write-and-end events, on the
happy path and on error paths alike. -/
theorem closeConnection_behavior :
    closeConnection CloseBehavior.ok =
      [NetEvent.wrote "QUIT\r\n", NetEvent.socketEnd] ∧
    closeConnection CloseBehavior.endThrows = [NetEvent.wrote "QUIT\r\n"] ∧
    closeConnection CloseBehavior.writeThrows = [] ∧
    ∀ (cfg : SmtpConfig) (inited : Bool) (b : String) (o : EmailOptions)
      (srv : ServerBehavior) (res : SendOutcome) (tr : List NetEvent) (u : String),
      sendEmail cfg inited b o srv = some (res, tr) →
      NetEvent.wrote u ∈ tr →
      ∃ pre, tr = pre ++ closeConnection CloseBehavior.ok := by
  refine ⟨rfl, rfl, rfl, ?_⟩
  intro cfg inited b o srv res tr u h hmem
  rcases sendEmail_trace_cases h with h' | h' | h' | ⟨ws, h'⟩ <;> subst h'
  · simp at hmem
  · cases inited <;> simp [probeTrace] at hmem
  · cases inited <;> simp [probeTrace] at hmem
  · exact ⟨probeTrace inited ++ [NetEvent.connected] ++ ws.map NetEvent.wrote,
      by simp [closeConnection, List.append_assoc]⟩

/-- C8 witness: the EHLO-rejected run of the C1 witness ends with the
QUIT-write-and-end pair. -/
theorem closeConnection_behavior_witness :
    ∃ pre, [NetEvent.connected, NetEvent.wrote "EHLO localhost\r\n",
            NetEvent.wrote "QUIT\r\n", NetEvent.socketEnd] =
      pre ++ closeConnection CloseBehavior.ok :=
  closeConnection_behavior.2.2.2
    ⟨"localhost", 1025, false, "", ""⟩ true "B"
    { fromAddr := some { email := "a@b.co" }, toAddr := some (.single { email := "c@d.co" }),
      subject := "s", text := some "t" }
    ⟨true, some "220 hi\r\n", [["500 no\r\n"]]⟩
    { success := false, error := some (.unexpectedReply ["250"] "500 no") }
    [NetEvent.connected, NetEvent.wrote "EHLO localhost\r\n",
     NetEvent.wrote "QUIT\r\n", NetEvent.socketEnd]
    "EHLO localhost\r\n" (by decide) (by decide)

/-- C9 counterexample: a server that accepts the TCP connection but greets
with code 554: `isAvailable` still reports `true` and `initialize`
succeeds — the greeting is never read by either. -/
theorem isAvailable_ignores_greeting_counterexample :
    isPortAvailable ⟨true, some "554 denied\r\n", []⟩ = true ∧
    initProvider false ⟨true, some "554 denied\r\n", []⟩ = Except.ok () ∧
    String.mk (("554 denied\r\n").toList.take 3) ≠ "220" := by
  exact ⟨rfl, rfl, by decide⟩

/-- C9 (amended).  `isAvailable` is only a TCP-connectability probe — it
resolves `true` exactly when the connection attempt succeeds and never
reads the greeting; the 220 check is instead performed inside
`sendEmail`'s connection setup, which fails the send (destroying the
socket) on a non-220 greeting even though `isAvailable` reports `true`. -/
theorem greeting_checked_at_send_not_isAvailable (cfg : SmtpConfig)
    (inited : Bool) (b : String) (o : EmailOptions) (srv : ServerBehavior)
    (g : String)
    (hg : srv.greeting = some g)
    (h220 : String.mk (g.toList.take 3) ≠ "220")
    (hv : validateEmailOptions o = [])
    (hc : srv.connectOk = true) :
    isPortAvailable srv = true ∧
    sendEmail cfg inited b o srv =
      some ({ success := false, error := some (.badGreeting g) },
            probeTrace inited ++ [NetEvent.connected, NetEvent.destroyed]) := by
  refine ⟨hc, ?_⟩
  have h220' : (String.mk (g.data.take 3) == "220") = false := by
    rw [beq_eq_false_iff_ne]
    exact h220
  unfold sendEmail
  rw [hv, hg]
  simp [isPortAvailable, hc, h220']

/-- C9 witness: the amended theorem at the counterexample server. -/
theorem greeting_checked_at_send_not_isAvailable_witness :
    isPortAvailable ⟨true, some "554 denied\r\n", []⟩ = true ∧
    sendEmail ⟨"localhost", 1025, false, "", ""⟩ true "B"
      { fromAddr := some { email := "a@b.co" },
        toAddr := some (.single { email := "c@d.co" }),
        subject := "s", text := some "t" }
      ⟨true, some "554 denied\r\n", []⟩ =
      some ({ success := false, error := some (.badGreeting "554 denied\r\n") },
            probeTrace true ++ [NetEvent.connected, NetEvent.destroyed]) :=
  greeting_checked_at_send_not_isAvailable
    ⟨"localhost", 1025, false, "", ""⟩ true "B"
    { fromAddr := some { email := "a@b.co" },
      toAddr := some (.single { email := "c@d.co" }),
      subject := "s", text := some "t" }
    ⟨true, some "554 denied\r\n", []⟩ "554 denied\r\n"
    rfl (by decide) (by decide) rfl

/-- C10.  `EmailService.isAvailable` and `EmailService.validateCredentials`
are total boolean functions of the provider's outcomes (they cannot
reject), and every failure — provider construction, initialization, or the
underlying availability/credential check — is caught and turned into
`false`. -/
theorem service_checks_never_throw (e : String) (p : ProviderHandle)
    (inited : Bool) :
    serviceIsAvailable (.error e) = false ∧
    (p.availRes = .error e → serviceIsAvailable (.ok p) = false) ∧
    serviceValidateCredentials (.error e) inited = false ∧
    (p.initRes = .error e → serviceValidateCredentials (.ok p) false = false) ∧
    (p.credRes = some (.error e) → serviceValidateCredentials (.ok p) inited = false) := by
  refine ⟨rfl, ?_, ?_, ?_, ?_⟩
  · intro ha; simp [serviceIsAvailable, ha]
  · simp [serviceValidateCredentials]
    cases inited <;> simp
  · intro hi; simp [serviceValidateCredentials, hi]
  · intro hc
    cases inited <;> rcases hr : p.initRes with e1 | u <;>
      simp [serviceValidateCredentials, hc, hr]

/-- C10 witness: a provider whose every operation rejects. -/
theorem service_checks_never_throw_witness :
    serviceIsAvailable (.error "boom") = false ∧
    (serviceIsAvailable (.ok ⟨.error "boom", some (.error "boom"), .error "boom"⟩)
      = false) ∧
    serviceValidateCredentials (.error "boom") true = false ∧
    (serviceValidateCredentials
      (.ok ⟨.error "boom", some (.error "boom"), .error "boom"⟩) false = false) ∧
    (serviceValidateCredentials
      (.ok ⟨.error "boom", some (.error "boom"), .error "boom"⟩) true = false) := by
  have h := service_checks_never_throw "boom"
    ⟨.error "boom", some (.error "boom"), .error "boom"⟩ true
  exact ⟨h.1, h.2.1 rfl, h.2.2.1, (service_checks_never_throw "boom"
    ⟨.error "boom", some (.error "boom"), .error "boom"⟩ true).2.2.2.1 rfl,
    h.2.2.2.2 rfl⟩

/-- C6.  `retry fn i n d`: a successful first invocation means exactly one
invocation; when every invocation up to `n` fails, there are exactly
`n + 1` invocations, the last failure is returned, and the waits between
consecutive invocations are `d, 2d, 4d, …` (doubling after each
attempt). -/
theorem retry_invocation_counts (fn : Nat → FnOut) (n d : Nat) :
    ((toResult (fn 0)).1 = true → retry fn 0 n d = (toResult (fn 0), 1, [])) ∧
    ((∀ k, k ≤ n → (toResult (fn k)).1 = false) →
      retry fn 0 n d =
        (toResult (fn n), n + 1, (List.range n).map (fun j => d * 2 ^ j))) := by
  have main : ∀ (m : Nat) (g : Nat → FnOut) (i e : Nat),
      (∀ k, k ≤ m → (toResult (g (i + k))).1 = false) →
      retry g i m e =
        (toResult (g (i + m)), m + 1, (List.range m).map (fun j => e * 2 ^ j)) := by
    intro m
    induction m with
    | zero => intro g i e hfail; simp [retry]
    | succ m ih =>
      intro g i e hfail
      have h0 : (toResult (g i)).1 = false := by simpa using hfail 0 (Nat.zero_le _)
      have hrec := ih g (i + 1) (e * 2) (fun k hk => by
        have hx := hfail (k + 1) (by omega)
        rwa [show i + (k + 1) = i + 1 + k by omega] at hx)
      have hidx : i + 1 + m = i + (m + 1) := by omega
      have hdel : e :: (List.range m).map (fun j => e * 2 * 2 ^ j) =
          (List.range (m + 1)).map (fun j => e * 2 ^ j) := by
        rw [List.range_succ_eq_map, List.map_cons, List.map_map]
        refine congrArg₂ _ (by simp) ?_
        refine List.map_congr_left ?_
        intro j hj
        simp [Function.comp_def, pow_succ]
        ring
      rw [retry, if_neg (by simp [h0]), hrec]
      simp only
      rw [hidx, hdel]
  constructor
  · intro hs
    cases n with
    | zero => rfl
    | succ r => rw [retry, if_pos (by simp [hs])]
  · intro hfail
    have := main n fn 0 d (fun k hk => by simpa using hfail k hk)
    simpa using this

/-- C6 witness: success on first call is one invocation; three failing
invocations with `n = 2`, `d = 5` return the last failure with waits
`[5, 10]`. -/
theorem retry_invocation_counts_witness :
    retry (fun k => if k = 0 then FnOut.ret true "ok" else FnOut.ret false "e") 0 3 5 =
      (toResult (FnOut.ret true "ok"), 1, []) ∧
    retry (fun k => FnOut.ret false (if k = 2 then "last" else "x")) 0 2 5 =
      (toResult (FnOut.ret false "last"), 3, [5, 10]) := by
  constructor
  · have h := (retry_invocation_counts
      (fun k => if k = 0 then FnOut.ret true "ok" else FnOut.ret false "e") 3 5).1
      (by decide)
    simpa using h
  · have h := (retry_invocation_counts
      (fun k => FnOut.ret false (if k = 2 then "last" else "x")) 2 5).2
      (by decide)
    simpa using h

/-- C7.  With both a user and a password configured, `authenticate`
performs exactly the LOGIN exchange — `AUTH LOGIN` expecting 334,
base64(user) expecting 334, base64(password) expecting 235 (any other
reply code rejects the step, by `runCmds`/`sendSmtpCommand` semantics) —
and with either credential missing it is a no-op that issues no command
and leaves the connection state untouched. -/
theorem authenticate_login_exchange (cfg : SmtpConfig) :
    (cfg.user ≠ "" → cfg.password ≠ "" →
      authCmds cfg = [("AUTH LOGIN", ["334"]),
                      (base64Encode (strBytes cfg.user), ["334"]),
                      (base64Encode (strBytes cfg.password), ["235"])]) ∧
    ((cfg.user = "" ∨ cfg.password = "") →
      authCmds cfg = [] ∧
      ∀ st : DriverState, runCmds st (authCmds cfg) = some (st, none)) := by
  constructor
  · intro hu hp
    simp [authCmds, hu, hp]
  · intro hor
    have hz : authCmds cfg = [] := by
      rcases hor with h | h <;> simp [authCmds, h]
    exact ⟨hz, fun st => by rw [hz]; rfl⟩

/-- C7 witness: concrete credentials produce the three-step exchange; a
missing user produces no commands. -/
theorem authenticate_login_exchange_witness :
    authCmds ⟨"h", 25, false, "u", "p"⟩ =
      [("AUTH LOGIN", ["334"]),
       (base64Encode (strBytes "u"), ["334"]),
       (base64Encode (strBytes "p"), ["235"])] ∧
    authCmds ⟨"h", 25, false, "", "p"⟩ = [] ∧
    runCmds ⟨[], []⟩ (authCmds ⟨"h", 25, false, "", "p"⟩) = some (⟨[], []⟩, none) :=
  ⟨(authenticate_login_exchange ⟨"h", 25, false, "u", "p"⟩).1 (by decide) (by decide),
   ((authenticate_login_exchange ⟨"h", 25, false, "", "p"⟩).2 (Or.inl rfl)).1,
   ((authenticate_login_exchange ⟨"h", 25, false, "", "p"⟩).2 (Or.inl rfl)).2 ⟨[], []⟩⟩

/-- C3 counterexample: `to: []` (an empty recipient array) passes
validation — `!options.to` is false for an array — so a message with zero
recipients is not rejected: `sendEmail` opens the connection, performs the
whole transaction with no `RCPT TO` at all, and even reports success. -/
theorem sendEmail_empty_recipient_list_counterexample :
    validateEmailOptions
      { fromAddr := some { email := "a@b.co" }, toAddr := some (.many []),
        subject := "s", text := some "t" } = [] ∧
    recipientEmails
      { fromAddr := some { email := "a@b.co" }, toAddr := some (.many []),
        subject := "s", text := some "t" } = [] ∧
    (sendEmail ⟨"localhost", 1025, false, "", ""⟩ true "B"
        { fromAddr := some { email := "a@b.co" }, toAddr := some (.many []),
          subject := "s", text := some "t" }
        ⟨true, some "220 hi\r\n",
         [["250 ok\r\n"], ["250 ok\r\n"], ["354 go\r\n"], ["250 ok\r\n"]]⟩).map
      (fun r => (r.1.success, r.2.contains NetEvent.connected)) = some (true, true) := by
  refine ⟨by decide, by decide, by decide⟩

/-- C3 (amended).  For every `EmailOptions` that is invalid in the sense
the code checks — `from` missing or empty, the `to` *field* absent
(an empty recipient array is accepted), `subject` empty, neither text nor
html truthy, or any supplied address failing the validation regex —
`sendEmail` returns a failed `Result` tagged with the validation errors
before any network activity: the trace is empty (no probe, no socket, no
command). -/
theorem sendEmail_validation_fails_fast (cfg : SmtpConfig) (inited : Bool)
    (b : String) (o : EmailOptions) (srv : ServerBehavior)
    (hinv : fromFalsy o = true ∨ o.toAddr = none ∨ o.subject = "" ∨
            (optTruthy o.text = false ∧ optTruthy o.html = false) ∨
            (∃ a ∈ flattenField o.toAddr, validateEmail a.email = false) ∨
            (∃ a ∈ flattenField o.cc, validateEmail a.email = false) ∨
            (∃ a ∈ flattenField o.bcc, validateEmail a.email = false) ∨
            (∃ a, o.fromAddr = some a ∧ a.email ≠ "" ∧ validateEmail a.email = false) ∨
            (∃ r, o.replyTo = some r ∧ validateEmail r.email = false)) :
    validateEmailOptions o ≠ [] ∧
    sendEmail cfg inited b o srv =
      some ({ success := false,
              error := some (.invalidOptions (validateEmailOptions o)) }, []) := by
  have hne : validateEmailOptions o ≠ [] := by
    intro hempty
    rw [validateEmailOptions] at hempty
    simp only [List.append_eq_nil, and_assoc] at hempty
    obtain ⟨h1, h2, h3, h4, h5, h6, h7, h8, h9⟩ := hempty
    rcases hinv with hx | hx | hx | hx | hx | hx | hx | hx | hx
    · simp [hx] at h1
    · simp [hx] at h2
    · simp [hx] at h3
    · simp [hx.1, hx.2] at h4
    · obtain ⟨a, hmem, hvala⟩ := hx
      rw [checkAddresses, List.filterMap_eq_nil_iff] at h6
      have := h6 a hmem
      simp [hvala] at this
    · obtain ⟨a, hmem, hvala⟩ := hx
      rw [checkAddresses, List.filterMap_eq_nil_iff] at h7
      have := h7 a hmem
      simp [hvala] at this
    · obtain ⟨a, hmem, hvala⟩ := hx
      rw [checkAddresses, List.filterMap_eq_nil_iff] at h8
      have := h8 a hmem
      simp [hvala] at this
    · obtain ⟨a, hfa, hnz, hvala⟩ := hx
      rw [hfa] at h5
      simp [hnz, hvala] at h5
    · obtain ⟨r, hrt, hvala⟩ := hx
      rw [hrt] at h9
      simp [hvala] at h9
  have hfalse : (validateEmailOptions o).isEmpty = false := by
    cases hx : (validateEmailOptions o).isEmpty
    · rfl
    · exact absurd (List.isEmpty_iff.mp hx) hne
  refine ⟨hne, ?_⟩
  unfold sendEmail
  rw [hfalse]
  simp

/-- C3 witness: an options value with an empty subject is rejected with no
socket activity. -/
theorem sendEmail_validation_fails_fast_witness :
    validateEmailOptions
      { fromAddr := some { email := "a@b.co" },
        toAddr := some (.single { email := "c@d.co" }),
        subject := "", text := some "t" } ≠ [] ∧
    sendEmail ⟨"localhost", 1025, false, "", ""⟩ false "B"
      { fromAddr := some { email := "a@b.co" },
        toAddr := some (.single { email := "c@d.co" }),
        subject := "", text := some "t" }
      ⟨true, some "220 hi\r\n", []⟩ =
      some ({ success := false,
              error := some (.invalidOptions (validateEmailOptions
                { fromAddr := some { email := "a@b.co" },
                  toAddr := some (.single { email := "c@d.co" }),
                  subject := "", text := some "t" })) }, []) :=
  sendEmail_validation_fails_fast ⟨"localhost", 1025, false, "", ""⟩ false "B"
    { fromAddr := some { email := "a@b.co" },
      toAddr := some (.single { email := "c@d.co" }),
      subject := "", text := some "t" }
    ⟨true, some "220 hi\r\n", []⟩
    (Or.inr (Or.inr (Or.inl rfl)))


/-- Length of the envelope command list: EHLO + auth steps + MAIL FROM +
one RCPT per recipient + DATA. -/
lemma envelopeCmds_length (cfg : SmtpConfig) (o : EmailOptions) :
    (envelopeCmds cfg o).length =
      (authCmds cfg).length + 3 + (recipientEmails o).length := by
  simp [envelopeCmds]
  omega

/-- The envelope command at index `|auth| + 2 + i` is the `RCPT TO` for
the `i`-th flattened recipient, with expected code 250. -/
lemma envelopeCmds_rcpt_get (cfg : SmtpConfig) (o : EmailOptions) (i : Nat)
    (hi : i < (recipientEmails o).length) :
    (envelopeCmds cfg o).getD ((authCmds cfg).length + 2 + i) ("", []) =
      ("RCPT TO:<" ++ (recipientEmails o).getD i "" ++ ">", ["250"]) := by
  rw [envelopeCmds,
      show (authCmds cfg).length + 2 + i = ((authCmds cfg).length + 1 + i) + 1 from by
        omega,
      List.getD_cons_succ]
  rw [List.getD_append _ _ _ _ (by simp; omega)]
  rw [List.getD_append_right _ _ _ _ (by simp)]
  have hlen : (authCmds cfg ++
      [("MAIL FROM:<" ++ fromEmail o ++ ">", ["250"])]).length =
      (authCmds cfg).length + 1 := by simp
  rw [hlen, show (authCmds cfg).length + 1 + i - ((authCmds cfg).length + 1) = i from by
      omega]
  rw [List.getD_eq_getElem _ _ (by simpa using hi), List.getElem_map,
      List.getD_eq_getElem _ _ hi]

/-- If the replies of every envelope command up to some bound covering all
the `RCPT TO` commands were accepted, then every `RCPT TO` command
received an accepted reply against expected code 250. -/
lemma rcpt_accepted_of_acc {cfg : SmtpConfig} {o : EmailOptions}
    {srv : ServerBehavior} (bound : Nat)
    (hbound : (authCmds cfg).length + 2 + (recipientEmails o).length ≤ bound)
    (hacc : ∀ j, j < bound →
      ∃ resp, sendSmtpCommand ((envelopeCmds cfg o).getD j ("", [])).2
        (srv.replies.getD j []) = some (CmdResult.accepted resp)) :
    ∀ i, i < (recipientEmails o).length →
      ∃ resp, sendSmtpCommand ["250"]
        (srv.replies.getD ((authCmds cfg).length + 2 + i) []) =
        some (CmdResult.accepted resp) := by
  intro i hi
  obtain ⟨resp, hr⟩ := hacc ((authCmds cfg).length + 2 + i) (by omega)
  rw [envelopeCmds_rcpt_get cfg o i hi] at hr
  exact ⟨resp, hr⟩

/-- C4.  For every valid `EmailOptions` and settled `sendEmail`: the
envelope command list is EHLO, the (possibly empty) AUTH exchange, MAIL
FROM, exactly one `RCPT TO` per flattened recipient — To then Cc then
Bcc, no de-duplication, so `|to| + |cc| + |bcc|` in total — and DATA
last.  On success every envelope command's reply was accepted and the
socket writes are exactly that list followed by the payload and QUIT.  On
failure the writes are the commands up to and including the first
rejected one (every earlier reply accepted, that one rejected) plus QUIT
— or all of them when only the payload step failed.  Finally, the DATA
command (the last envelope command, at index `|cmds| - 1` of the writes)
is written only if every `RCPT TO` command received an accepted reply
against expected code 250: a single rejected recipient aborts the
transaction before DATA. -/
theorem sendEmail_rcpt_order_and_data (cfg : SmtpConfig) (inited : Bool)
    (b : String) (o : EmailOptions) (srv : ServerBehavior)
    (res : SendOutcome) (tr : List NetEvent)
    (hv : validateEmailOptions o = [])
    (h : sendEmail cfg inited b o srv = some (res, tr)) :
    envelopeCmds cfg o =
      ("EHLO " ++ cfg.host, ["250"]) ::
        (authCmds cfg ++
         [("MAIL FROM:<" ++ fromEmail o ++ ">", ["250"])] ++
         (recipientEmails o).map (fun r => ("RCPT TO:<" ++ r ++ ">", ["250"])) ++
         [("DATA", ["354"])]) ∧
    (res.success = true →
      (∀ i, i < (envelopeCmds cfg o).length →
        ∃ resp, sendSmtpCommand ((envelopeCmds cfg o).getD i ("", [])).2
          (srv.replies.getD i []) = some (CmdResult.accepted resp)) ∧
      ∃ mime, buildMimeMessage o b = Except.ok mime ∧
        writesOf tr =
          (envelopeCmds cfg o).map (fun p => p.1 ++ "\r\n") ++
            [mime ++ "\r\n." ++ "\r\n", "QUIT\r\n"]) ∧
    (res.success = false →
      writesOf tr = [] ∨
      (∃ k, k < (envelopeCmds cfg o).length ∧
        (∀ i, i < k →
          ∃ resp, sendSmtpCommand ((envelopeCmds cfg o).getD i ("", [])).2
            (srv.replies.getD i []) = some (CmdResult.accepted resp)) ∧
        (∃ line, sendSmtpCommand ((envelopeCmds cfg o).getD k ("", [])).2
          (srv.replies.getD k []) = some (CmdResult.rejectedReply line)) ∧
        writesOf tr =
          ((envelopeCmds cfg o).map (fun p => p.1 ++ "\r\n")).take (k + 1) ++
            ["QUIT\r\n"]) ∨
      ((∀ i, i < (envelopeCmds cfg o).length →
          ∃ resp, sendSmtpCommand ((envelopeCmds cfg o).getD i ("", [])).2
            (srv.replies.getD i []) = some (CmdResult.accepted resp)) ∧
       (writesOf tr =
          (envelopeCmds cfg o).map (fun p => p.1 ++ "\r\n") ++ ["QUIT\r\n"] ∨
        ∃ mime, buildMimeMessage o b = Except.ok mime ∧
          writesOf tr =
            (envelopeCmds cfg o).map (fun p => p.1 ++ "\r\n") ++
              [mime ++ "\r\n." ++ "\r\n", "QUIT\r\n"]))) ∧
    ((writesOf tr)[(envelopeCmds cfg o).length - 1]? = some "DATA\r\n" →
      ∀ i, i < (recipientEmails o).length →
        ∃ resp, sendSmtpCommand ["250"]
          (srv.replies.getD ((authCmds cfg).length + 2 + i) []) =
          some (CmdResult.accepted resp)) := by
  refine ⟨rfl, ?_⟩
  unfold sendEmail at h
  split at h
  · split at h
    · simp only [Option.some.injEq, Prod.mk.injEq] at h
      have hwe : writesOf tr = [] := by rw [← h.2, writesOf_probe]
      refine ⟨fun hs => absurd (h.1 ▸ hs) (by simp), fun _ => Or.inl hwe,
              fun hdata => ?_⟩
      rw [hwe] at hdata
      simp at hdata
    · split at h
      · simp only [Option.some.injEq, Prod.mk.injEq] at h
        have hwe : writesOf tr = [] := by rw [← h.2, writesOf_probe]
        refine ⟨fun hs => absurd (h.1 ▸ hs) (by simp), fun _ => Or.inl hwe,
                fun hdata => ?_⟩
        rw [hwe] at hdata
        simp at hdata
      · split at h
        · simp only [Option.some.injEq, Prod.mk.injEq] at h
          have hwe : writesOf tr = [] := by
            rw [← h.2, writesOf_append, writesOf_probe]
            rfl
          refine ⟨fun hs => absurd (h.1 ▸ hs) (by simp), fun _ => Or.inl hwe,
                  fun hdata => ?_⟩
          rw [hwe] at hdata
          simp at hdata
        · rename_i g
          split at h
          · split at h
            · exact absurd h (by simp)
            · rename_i st1 e hrun
              simp only [Option.some.injEq, Prod.mk.injEq] at h
              obtain ⟨k, hk, ht, hacc, hrej⟩ := runCmds_err_trace _ _ _ _ hrun
              dsimp only at hacc hrej
              have hw : writesOf tr =
                  ((envelopeCmds cfg o).map (fun p => p.1 ++ "\r\n")).take (k + 1) ++
                    ["QUIT\r\n"] := by
                rw [← h.2, ht]
                dsimp only
                simp only [writesOf_append, writesOf_probe]
                rw [show writesOf [NetEvent.connected] = [] from rfl,
                    show writesOf (closeConnection CloseBehavior.ok) =
                      ["QUIT\r\n"] from rfl,
                    show (List.take (k + 1) (envelopeCmds cfg o)).map
                          (fun p => NetEvent.wrote (p.1 ++ "\r\n")) =
                        ((List.take (k + 1) (envelopeCmds cfg o)).map
                          (fun p => p.1 ++ "\r\n")).map NetEvent.wrote by
                      rw [List.map_map]; rfl,
                    writesOf_map_wrote, List.map_take]
                simp
              refine ⟨fun hs => absurd (h.1 ▸ hs) (by simp),
                      fun _ => Or.inr (Or.inl ⟨k, hk, hacc, hrej, hw⟩),
                      fun hdata => ?_⟩
              by_cases hkL : k = (envelopeCmds cfg o).length - 1
              · intro i hi
                refine rcpt_accepted_of_acc k ?_ hacc i hi
                rw [hkL, envelopeCmds_length]
                omega
              · exfalso
                rw [hw] at hdata
                have hlen2 : (((envelopeCmds cfg o).map
                    (fun p => p.1 ++ "\r\n")).take (k + 1)).length = k + 1 := by
                  simp [List.length_take]
                  omega
                rw [List.getElem?_append_right (by rw [hlen2]; omega)] at hdata
                rw [hlen2] at hdata
                rcases hm : (envelopeCmds cfg o).length - 1 - (k + 1) with _ | m
                · rw [hm] at hdata
                  simp only [List.getElem?_cons_zero, Option.some.injEq] at hdata
                  exact absurd hdata (by decide)
                · rw [hm] at hdata
                  simp at hdata
            · rename_i st1 hrun
              obtain ⟨ht1, -, haccAll⟩ := runCmds_ok_trace _ _ _ hrun
              dsimp only at haccAll
              have hwst1 : writesOf st1.trace =
                  (envelopeCmds cfg o).map (fun p => p.1 ++ "\r\n") := by
                rw [ht1]
                dsimp only
                simp only [writesOf_append, writesOf_probe]
                rw [show writesOf [NetEvent.connected] = [] from rfl,
                    show (envelopeCmds cfg o).map
                          (fun p => NetEvent.wrote (p.1 ++ "\r\n")) =
                        ((envelopeCmds cfg o).map
                          (fun p => p.1 ++ "\r\n")).map NetEvent.wrote by
                      rw [List.map_map]; rfl,
                    writesOf_map_wrote]
                simp
              have hgate : ∀ i, i < (recipientEmails o).length →
                  ∃ resp, sendSmtpCommand ["250"]
                    (srv.replies.getD ((authCmds cfg).length + 2 + i) []) =
                    some (CmdResult.accepted resp) := by
                refine rcpt_accepted_of_acc (envelopeCmds cfg o).length ?_ haccAll
                rw [envelopeCmds_length]
                omega
              split at h
              · rename_i e hmime
                simp only [Option.some.injEq, Prod.mk.injEq] at h
                have hw : writesOf tr =
                    (envelopeCmds cfg o).map (fun p => p.1 ++ "\r\n") ++
                      ["QUIT\r\n"] := by
                  rw [← h.2, writesOf_append, hwst1,
                      show writesOf (closeConnection CloseBehavior.ok) =
                        ["QUIT\r\n"] from rfl]
                exact ⟨fun hs => absurd (h.1 ▸ hs) (by simp),
                       fun _ => Or.inr (Or.inr ⟨haccAll, Or.inl hw⟩),
                       fun _ => hgate⟩
              · rename_i mime hmime
                split at h
                · exact absurd h (by simp)
                · rename_i st2 e hdo
                  simp only [Option.some.injEq, Prod.mk.injEq] at h
                  obtain ⟨chunks, rest1, _, hst2⟩ := doCmd_some hdo
                  have hw : writesOf tr =
                      (envelopeCmds cfg o).map (fun p => p.1 ++ "\r\n") ++
                        [mime ++ "\r\n." ++ "\r\n", "QUIT\r\n"] := by
                    rw [← h.2, hst2]
                    dsimp only
                    simp only [writesOf_append, hwst1]
                    rw [show writesOf (closeConnection CloseBehavior.ok) =
                        ["QUIT\r\n"] from rfl,
                        show writesOf [NetEvent.wrote (mime ++ "\r\n." ++ "\r\n")] =
                        [mime ++ "\r\n." ++ "\r\n"] from rfl]
                    simp
                  exact ⟨fun hs => absurd (h.1 ▸ hs) (by simp),
                         fun _ => Or.inr (Or.inr ⟨haccAll,
                           Or.inr ⟨mime, hmime, hw⟩⟩),
                         fun _ => hgate⟩
                · rename_i st2 v hdo
                  simp only [Option.some.injEq, Prod.mk.injEq] at h
                  obtain ⟨chunks, rest1, _, hst2⟩ := doCmd_some hdo
                  have hw : writesOf tr =
                      (envelopeCmds cfg o).map (fun p => p.1 ++ "\r\n") ++
                        [mime ++ "\r\n." ++ "\r\n", "QUIT\r\n"] := by
                    rw [← h.2, hst2]
                    dsimp only
                    simp only [writesOf_append, hwst1]
                    rw [show writesOf (closeConnection CloseBehavior.ok) =
                        ["QUIT\r\n"] from rfl,
                        show writesOf [NetEvent.wrote (mime ++ "\r\n." ++ "\r\n")] =
                        [mime ++ "\r\n." ++ "\r\n"] from rfl]
                    simp
                  exact ⟨fun _ => ⟨haccAll, mime, hmime, hw⟩,
                         fun hs => absurd (h.1 ▸ hs) (by simp),
                         fun _ => hgate⟩
          · simp only [Option.some.injEq, Prod.mk.injEq] at h
            have hwe : writesOf tr = [] := by
              rw [← h.2, writesOf_append, writesOf_probe]
              rfl
            refine ⟨fun hs => absurd (h.1 ▸ hs) (by simp), fun _ => Or.inl hwe,
                    fun hdata => ?_⟩
            rw [hwe] at hdata
            simp at hdata
  · rename_i hnv
    rw [hv] at hnv
    exact absurd rfl hnv

/-- C4 witness: a send with one To, one Cc and one Bcc recipient issues
exactly three `RCPT TO` writes, in that order, with DATA after them, and
the first RCPT's scripted reply was accepted against expected code
250. -/
theorem sendEmail_rcpt_order_and_data_witness :
    ∃ res tr mime,
      sendEmail ⟨"localhost", 1025, false, "", ""⟩ true "B"
        { fromAddr := some { email := "f@x.co" },
          toAddr := some (.single { email := "t@x.co" }),
          subject := "s", text := some "T",
          cc := some (.single { email := "c@x.co" }),
          bcc := some (.single { email := "b@x.co" }) }
        ⟨true, some "220 hi\r\n",
         [["250 ok\r\n"], ["250 ok\r\n"], ["250 ok\r\n"], ["250 ok\r\n"],
          ["250 ok\r\n"], ["354 go\r\n"], ["250 ok\r\n"]]⟩ = some (res, tr) ∧
      res.success = true ∧
      buildMimeMessage
        { fromAddr := some { email := "f@x.co" },
          toAddr := some (.single { email := "t@x.co" }),
          subject := "s", text := some "T",
          cc := some (.single { email := "c@x.co" }),
          bcc := some (.single { email := "b@x.co" }) } "B" = Except.ok mime ∧
      writesOf tr =
        ["EHLO localhost\r\n", "MAIL FROM:<f@x.co>\r\n", "RCPT TO:<t@x.co>\r\n",
         "RCPT TO:<c@x.co>\r\n", "RCPT TO:<b@x.co>\r\n", "DATA\r\n",
         mime ++ "\r\n." ++ "\r\n", "QUIT\r\n"] ∧
      (∃ resp, sendSmtpCommand ["250"]
        ((⟨true, some "220 hi\r\n",
           [["250 ok\r\n"], ["250 ok\r\n"], ["250 ok\r\n"], ["250 ok\r\n"],
            ["250 ok\r\n"], ["354 go\r\n"], ["250 ok\r\n"]]⟩ :
            ServerBehavior).replies.getD
          ((authCmds ⟨"localhost", 1025, false, "", ""⟩).length + 2 + 0) []) =
        some (CmdResult.accepted resp)) := by
  obtain ⟨p, hp⟩ : ∃ p, sendEmail ⟨"localhost", 1025, false, "", ""⟩ true "B"
      { fromAddr := some { email := "f@x.co" },
        toAddr := some (.single { email := "t@x.co" }),
        subject := "s", text := some "T",
        cc := some (.single { email := "c@x.co" }),
        bcc := some (.single { email := "b@x.co" }) }
      ⟨true, some "220 hi\r\n",
       [["250 ok\r\n"], ["250 ok\r\n"], ["250 ok\r\n"], ["250 ok\r\n"],
        ["250 ok\r\n"], ["354 go\r\n"], ["250 ok\r\n"]]⟩ = some p := ⟨_, rfl⟩
  have hsucc : p.1.success = true := by
    have hb : (sendEmail ⟨"localhost", 1025, false, "", ""⟩ true "B"
        { fromAddr := some { email := "f@x.co" },
          toAddr := some (.single { email := "t@x.co" }),
          subject := "s", text := some "T",
          cc := some (.single { email := "c@x.co" }),
          bcc := some (.single { email := "b@x.co" }) }
        ⟨true, some "220 hi\r\n",
         [["250 ok\r\n"], ["250 ok\r\n"], ["250 ok\r\n"], ["250 ok\r\n"],
          ["250 ok\r\n"], ["354 go\r\n"], ["250 ok\r\n"]]⟩).map
        (fun r => r.1.success) = some true := by decide
    rw [hp] at hb
    simpa using hb
  have hmain := sendEmail_rcpt_order_and_data
    ⟨"localhost", 1025, false, "", ""⟩ true "B"
    { fromAddr := some { email := "f@x.co" },
      toAddr := some (.single { email := "t@x.co" }),
      subject := "s", text := some "T",
      cc := some (.single { email := "c@x.co" }),
      bcc := some (.single { email := "b@x.co" }) }
    ⟨true, some "220 hi\r\n",
     [["250 ok\r\n"], ["250 ok\r\n"], ["250 ok\r\n"], ["250 ok\r\n"],
      ["250 ok\r\n"], ["354 go\r\n"], ["250 ok\r\n"]]⟩ p.1 p.2
    (by decide) (by rw [hp])
  obtain ⟨-, hsuc, -, hgate⟩ := hmain
  obtain ⟨-, mime, hmime, hw⟩ := hsuc hsucc
  have hdata : (writesOf p.2)[(envelopeCmds
      ⟨"localhost", 1025, false, "", ""⟩
      { fromAddr := some { email := "f@x.co" },
        toAddr := some (.single { email := "t@x.co" }),
        subject := "s", text := some "T",
        cc := some (.single { email := "c@x.co" }),
        bcc := some (.single { email := "b@x.co" }) }).length - 1]? =
      some "DATA\r\n" := by
    rw [hw, List.getElem?_append_left (by decide)]
    decide
  have hrcpt := hgate hdata 0 (by decide)
  refine ⟨p.1, p.2, mime, by rw [hp], hsucc, hmime, ?_, hrcpt⟩
  rw [hw]
  rfl

/-! ### The MIME structure claim -/

/-- A validated address formats without throwing, to its total
formatting. -/
lemma formatEmailAddress_ok {a : EmailAddress}
    (hva : validateEmail a.email = true) :
    formatEmailAddress a = Except.ok (fmtAddr a) := by
  simp [formatEmailAddress, hva, fmtAddr]

/-- Formatting a list of validated addresses succeeds. -/
lemma formatAddrList_ok :
    ∀ (l : List EmailAddress), (∀ a ∈ l, validateEmail a.email = true) →
      formatAddrList l = Except.ok (l.map fmtAddr) := by
  intro l
  induction l with
  | nil => intro _; rfl
  | cons a t ih =>
    intro hall
    have ha := formatEmailAddress_ok (hall a (by simp))
    have ht := ih (fun x hx => hall x (by simp [hx]))
    rw [formatAddrList]
    simp [ha, ht, Bind.bind, Except.bind, Pure.pure, Except.pure]

/-- A validated single-or-array field formats without throwing. -/
lemma formatEmailAddresses_ok {f : AddrField}
    (hva : ∀ a ∈ flattenField (some f), validateEmail a.email = true) :
    formatEmailAddresses f = Except.ok (fmtAddrs f) := by
  cases f with
  | single a =>
    exact formatEmailAddress_ok (hva a (by simp [flattenField]))
  | many l =>
    have := formatAddrList_ok l (fun a ha => hva a (by simpa [flattenField] using ha))
    simp [formatEmailAddresses, fmtAddrs, this, Except.map]

/-- What an empty validation-error list guarantees about the fields. -/
lemma valid_options_fields {o : EmailOptions}
    (hv : validateEmailOptions o = []) :
    ∃ f, o.fromAddr = some f ∧ validateEmail f.email = true ∧
    ∃ tf, o.toAddr = some tf ∧
      (∀ a ∈ flattenField o.toAddr, validateEmail a.email = true) ∧
      (∀ a ∈ flattenField o.cc, validateEmail a.email = true) ∧
      (∀ a ∈ flattenField o.bcc, validateEmail a.email = true) ∧
      (∀ r, o.replyTo = some r → validateEmail r.email = true) := by
  rw [validateEmailOptions] at hv
  simp only [List.append_eq_nil, and_assoc] at hv
  obtain ⟨h1, h2, h3, h4, h5, h6, h7, h8, h9⟩ := hv
  have hff : fromFalsy o = false := by
    by_contra hc
    simp [Bool.not_eq_false] at hc
    simp [hc] at h1
  obtain ⟨f, hf, hfz⟩ : ∃ f, o.fromAddr = some f ∧ (f.email == "") = false := by
    rcases hfa : o.fromAddr with _ | f
    · rw [fromFalsy, hfa] at hff; exact absurd hff (by simp)
    · rw [fromFalsy, hfa] at hff; exact ⟨f, rfl, hff⟩
  have hvf : validateEmail f.email = true := by
    by_contra hc
    simp [Bool.not_eq_true] at hc
    rw [hf] at h5
    simp [hfz, hc] at h5
  obtain ⟨tf, htf⟩ : ∃ tf, o.toAddr = some tf := by
    rcases hta : o.toAddr with _ | tf
    · simp [hta] at h2
    · exact ⟨tf, rfl⟩
  have hcheck : ∀ (fld : Option AddrField) (nm : String),
      checkAddresses fld nm = [] →
      ∀ a ∈ flattenField fld, validateEmail a.email = true := by
    intro fld nm hck a ha
    rw [checkAddresses, List.filterMap_eq_nil_iff] at hck
    have := hck a ha
    by_contra hc
    simp [Bool.not_eq_true] at hc
    simp [hc] at this
  refine ⟨f, hf, hvf, tf, htf, hcheck _ _ h6, hcheck _ _ h7, hcheck _ _ h8, ?_⟩
  intro r hr
  rw [hr] at h9
  by_contra hc
  simp [Bool.not_eq_true] at hc
  simp [hc] at h9

/-- Every chunk produced by the 76-character splitter has length at most
76. -/
lemma chunkGo_length_le :
    ∀ (fuel : Nat) (l : List Char), l.length ≤ fuel →
      ∀ cs ∈ chunkGo fuel l, cs.length ≤ 76 := by
  intro fuel
  induction fuel with
  | zero =>
    intro l hl cs hcs
    have : l = [] := List.length_eq_zero.mp (Nat.le_zero.mp hl)
    subst this
    simp [chunkGo] at hcs
  | succ fuel ih =>
    intro l hl cs hcs
    rcases l with _ | ⟨c, rest⟩
    · simp [chunkGo] at hcs
    · rw [chunkGo] at hcs
      rcases List.mem_cons.mp hcs with hhead | htail
      · subst hhead
        simp only [List.length_cons]
        have := List.length_take_le 75 rest
        omega
      · refine ih (rest.drop 75) ?_ cs htail
        simp only [List.length_drop]
        simp only [List.length_cons] at hl
        omega

/-- C5.  For every `EmailOptions` that passes validation,
`buildMimeMessage` succeeds and its output is exactly the
specification-side layout `specMimeLines`: headers in the order
From, To, then Cc, Bcc, Reply-To each only when present, Subject,
MIME-Version, the caller-supplied custom headers, then
`Content-Type: multipart/mixed` with the generated boundary; body parts
follow as text/plain (if text), text/html (if html), then one part per
attachment — base64-re-encoded content (both for string and for Buffer
input) wrapped in lines of at most 76 characters, Content-Disposition
from the attachment's disposition defaulting to `attachment`, Content-ID
only when a truthy cid is present (see `attachmentLines`); the final line
is `--boundary--`. -/
theorem buildMimeMessage_structure (o : EmailOptions) (b : String)
    (hv : validateEmailOptions o = []) :
    ∃ f tf, o.fromAddr = some f ∧ o.toAddr = some tf ∧
      buildMimeMessage o b =
        Except.ok (String.intercalate "\r\n" (specMimeLines f tf o b)) ∧
      (specMimeLines f tf o b).getLast? = some ("--" ++ b ++ "--") ∧
      ∀ att ∈ o.attachments.getD [],
        ∀ cs ∈ chunkList (base64Encode (contentBytes att.content)).toList,
          cs.length ≤ 76 := by
  obtain ⟨f, hf, hvf, tf, htf, hto, hcc, hbcc, hrep⟩ := valid_options_fields hv
  have hfo := formatEmailAddress_ok hvf
  have hto' : formatEmailAddresses tf = Except.ok (fmtAddrs tf) := by
    refine formatEmailAddresses_ok ?_
    intro a ha
    exact hto a (by rw [htf]; exact ha)
  have hccf : ∀ cf, o.cc = some cf →
      formatEmailAddresses cf = Except.ok (fmtAddrs cf) := by
    intro cf hcf
    refine formatEmailAddresses_ok ?_
    intro a ha
    exact hcc a (by rw [hcf]; exact ha)
  have hbcf : ∀ bf, o.bcc = some bf →
      formatEmailAddresses bf = Except.ok (fmtAddrs bf) := by
    intro bf hbf
    refine formatEmailAddresses_ok ?_
    intro a ha
    exact hbcc a (by rw [hbf]; exact ha)
  have hrepf : ∀ r, o.replyTo = some r →
      formatEmailAddress r = Except.ok (fmtAddr r) := by
    intro r hr
    exact formatEmailAddress_ok (hrep r hr)
  refine ⟨f, tf, hf, htf, ?_, ?_, ?_⟩
  · rcases hc : o.cc with _ | cf <;> rcases hb : o.bcc with _ | bf <;>
      rcases hr : o.replyTo with _ | r
    · simp [buildMimeMessage, specMimeLines, hf, htf, hc, hb, hr, hfo, hto',
            Bind.bind, Except.bind, Pure.pure, Except.pure, Except.map,
            List.append_assoc]
    · simp [buildMimeMessage, specMimeLines, hf, htf, hc, hb, hr, hfo, hto',
            hrepf r hr, Bind.bind, Except.bind, Pure.pure, Except.pure,
            Except.map, List.append_assoc]
    · simp [buildMimeMessage, specMimeLines, hf, htf, hc, hb, hr, hfo, hto',
            hbcf bf hb, Bind.bind, Except.bind, Pure.pure, Except.pure,
            Except.map, List.append_assoc]
    · simp [buildMimeMessage, specMimeLines, hf, htf, hc, hb, hr, hfo, hto',
            hbcf bf hb, hrepf r hr, Bind.bind, Except.bind, Pure.pure,
            Except.pure, Except.map, List.append_assoc]
    · simp [buildMimeMessage, specMimeLines, hf, htf, hc, hb, hr, hfo, hto',
            hccf cf hc, Bind.bind, Except.bind, Pure.pure, Except.pure,
            Except.map, List.append_assoc]
    · simp [buildMimeMessage, specMimeLines, hf, htf, hc, hb, hr, hfo, hto',
            hccf cf hc, hrepf r hr, Bind.bind, Except.bind, Pure.pure,
            Except.pure, Except.map, List.append_assoc]
    · simp [buildMimeMessage, specMimeLines, hf, htf, hc, hb, hr, hfo, hto',
            hccf cf hc, hbcf bf hb, Bind.bind, Except.bind, Pure.pure,
            Except.pure, Except.map, List.append_assoc]
    · simp [buildMimeMessage, specMimeLines, hf, htf, hc, hb, hr, hfo, hto',
            hccf cf hc, hbcf bf hb, hrepf r hr, Bind.bind, Except.bind,
            Pure.pure, Except.pure, Except.map, List.append_assoc]
  · simp only [specMimeLines, ← List.append_assoc]
    exact List.getLast?_concat _
  · intro att _ cs hcs
    rw [chunkList] at hcs
    exact chunkGo_length_le _ _ (le_refl _) cs hcs

/-- C5 witness: a fully featured options value (named addresses, cc, bcc,
reply-to, custom header, text and html bodies, one string attachment with
defaults and one Buffer attachment with cid/disposition). -/
theorem buildMimeMessage_structure_witness :
    ∃ f tf,
      ({ fromAddr := some { email := "f@x.co", name := some "Fred" },
         toAddr := some (.many [{ email := "t@x.co" },
                                { email := "u@x.co", name := some "U" }]),
         subject := "Hello", text := some "T", html := some "<b>H</b>",
         cc := some (.single { email := "c@x.co" }),
         bcc := some (.many [{ email := "b@x.co" }]),
         headers := [("X-Test", "1")],
         attachments := some
           [{ filename := "a.txt", content := .str "hi" },
            { filename := "b.bin", content := .buf [0, 1, 2],
              contentType := some "application/x",
              disposition := some "inline", cid := some "cid1" }],
         replyTo := some { email := "r@x.co" } } : EmailOptions).fromAddr = some f ∧
      ({ fromAddr := some { email := "f@x.co", name := some "Fred" },
         toAddr := some (.many [{ email := "t@x.co" },
                                { email := "u@x.co", name := some "U" }]),
         subject := "Hello", text := some "T", html := some "<b>H</b>",
         cc := some (.single { email := "c@x.co" }),
         bcc := some (.many [{ email := "b@x.co" }]),
         headers := [("X-Test", "1")],
         attachments := some
           [{ filename := "a.txt", content := .str "hi" },
            { filename := "b.bin", content := .buf [0, 1, 2],
              contentType := some "application/x",
              disposition := some "inline", cid := some "cid1" }],
         replyTo := some { email := "r@x.co" } } : EmailOptions).toAddr = some tf ∧
      buildMimeMessage
        { fromAddr := some { email := "f@x.co", name := some "Fred" },
          toAddr := some (.many [{ email := "t@x.co" },
                                 { email := "u@x.co", name := some "U" }]),
          subject := "Hello", text := some "T", html := some "<b>H</b>",
          cc := some (.single { email := "c@x.co" }),
          bcc := some (.many [{ email := "b@x.co" }]),
          headers := [("X-Test", "1")],
          attachments := some
            [{ filename := "a.txt", content := .str "hi" },
             { filename := "b.bin", content := .buf [0, 1, 2],
               contentType := some "application/x",
               disposition := some "inline", cid := some "cid1" }],
          replyTo := some { email := "r@x.co" } } "BOUND" =
        Except.ok (String.intercalate "\r\n"
          (specMimeLines f tf
            { fromAddr := some { email := "f@x.co", name := some "Fred" },
              toAddr := some (.many [{ email := "t@x.co" },
                                     { email := "u@x.co", name := some "U" }]),
              subject := "Hello", text := some "T", html := some "<b>H</b>",
              cc := some (.single { email := "c@x.co" }),
              bcc := some (.many [{ email := "b@x.co" }]),
              headers := [("X-Test", "1")],
              attachments := some
                [{ filename := "a.txt", content := .str "hi" },
                 { filename := "b.bin", content := .buf [0, 1, 2],
                   contentType := some "application/x",
                   disposition := some "inline", cid := some "cid1" }],
              replyTo := some { email := "r@x.co" } } "BOUND")) ∧
      (specMimeLines f tf
        { fromAddr := some { email := "f@x.co", name := some "Fred" },
          toAddr := some (.many [{ email := "t@x.co" },
                                 { email := "u@x.co", name := some "U" }]),
          subject := "Hello", text := some "T", html := some "<b>H</b>",
          cc := some (.single { email := "c@x.co" }),
          bcc := some (.many [{ email := "b@x.co" }]),
          headers := [("X-Test", "1")],
          attachments := some
            [{ filename := "a.txt", content := .str "hi" },
             { filename := "b.bin", content := .buf [0, 1, 2],
               contentType := some "application/x",
               disposition := some "inline", cid := some "cid1" }],
          replyTo := some { email := "r@x.co" } } "BOUND").getLast? =
        some ("--" ++ "BOUND" ++ "--") ∧
      ∀ att ∈ (some
          [{ filename := "a.txt", content := .str "hi" },
           { filename := "b.bin", content := .buf [0, 1, 2],
             contentType := some "application/x",
             disposition := some "inline", cid := some "cid1" }] :
            Option (List Attachment)).getD [],
        ∀ cs ∈ chunkList (base64Encode (contentBytes att.content)).toList,
          cs.length ≤ 76 :=
  buildMimeMessage_structure
    { fromAddr := some { email := "f@x.co", name := some "Fred" },
      toAddr := some (.many [{ email := "t@x.co" },
                             { email := "u@x.co", name := some "U" }]),
      subject := "Hello", text := some "T", html := some "<b>H</b>",
      cc := some (.single { email := "c@x.co" }),
      bcc := some (.many [{ email := "b@x.co" }]),
      headers := [("X-Test", "1")],
      attachments := some
        [{ filename := "a.txt", content := .str "hi" },
         { filename := "b.bin", content := .buf [0, 1, 2],
           contentType := some "application/x",
           disposition := some "inline", cid := some "cid1" }],
      replyTo := some { email := "r@x.co" } } "BOUND" (by decide)

end Unemail
